import Mathlib

/-!
Shallow embedding of the `dabom-langchain` adapter
(`src/dabom_langchain/dabom_search_api_wrapper.py` and
`src/dabom_langchain/dabom_search.py`).

JSON values are modelled by an inductive type; Python dicts become
association lists (Python dicts have unique keys, so first-match lookup is
faithful).  Python exceptions become an explicit error type threaded through
`Except`.  The HTTP transport (requests / aiohttp) is a parameter
`HttpRequest → HttpResponse`; the response body is modelled as an
already-parsed JSON value (`response.json()` / `json.loads` on the text),
since transport-level parse failures are outside the code under study.
-/

namespace Dabom

/-- A JSON value.  Numbers are modelled as integers: the only numbers the
code under study ever places in a body are `max_results` integers. -/
inductive Json where
  | null : Json
  | bool (b : Bool) : Json
  | num (n : Int) : Json
  | str (s : String) : Json
  | arr (elems : List Json) : Json
  | obj (fields : List (String × Json)) : Json
deriving Repr

/-- First-match lookup in a JSON object's field list (Python dict lookup). -/
def lookupField : List (String × Json) → String → Option Json
  | [], _ => none
  | (k, v) :: rest, key => if k = key then some v else lookupField rest key

/-- Python exceptions that the code under study can raise.
`httpError` is `requests.exceptions.HTTPError` from `raise_for_status`;
`exception` is the bare `Exception(msg)` raised on the async path;
`keyError` is a missing dict key (the spec's MalformedResponseError);
`typeError` is subscripting / iterating a value of the wrong type;
`valueError` is the `ValueError` raised by `get_from_env` when the
credential is missing (the spec's ConfigurationError). -/
inductive Err where
  | httpError (status : Nat) (reason : String) : Err
  | exception (msg : String) : Err
  | keyError (key : String) : Err
  | typeError : Err
  | valueError (msg : String) : Err
deriving Repr, DecidableEq

/-- Python `obj[key]`: on a dict, value or `KeyError`; on any non-dict value
the string subscript raises `TypeError`. -/
def getItem (j : Json) (key : String) : Except Err Json :=
  match j with
  | .obj fields =>
    match lookupField fields key with
    | some v => .ok v
    | none => .error (.keyError key)
  | _ => .error .typeError

/-- Python iteration `for x in j`: lists yield their elements, strings yield
their one-character substrings, dicts yield their keys; other values raise
`TypeError`. -/
def pyIter : Json → Except Err (List Json)
  | .arr elems => .ok elems
  | .str s => .ok (s.data.map fun c => Json.str (String.mk [c]))
  | .obj fields => .ok (fields.map fun f => Json.str f.1)
  | _ => .error .typeError

/-- One iteration of the loop body of `clean_results`:
`{"url": result["url"], "content": result["content"]}` (the `url` value is
evaluated first, as in the Python dict display). -/
def cleanRecord (result : Json) : Except Err Json := do
  let u ← getItem result "url"
  let c ← getItem result "content"
  .ok (Json.obj [("url", u), ("content", c)])

/-- The loop of `clean_results`: append the cleaned record for each element
in order, stopping at the first raised exception. -/
def cleanList : List Json → Except Err (List Json)
  | [] => .ok []
  | r :: rest => do
    let c ← cleanRecord r
    let cs ← cleanList rest
    .ok (c :: cs)

/-- `DabomSearchAPIWrapper.clean_results` applied to a JSON value
(the callers pass `raw["results"]`, which may have any JSON shape). -/
def clean_results (results : Json) : Except Err (List Json) := do
  let rs ← pyIter results
  cleanList rs

/-- `DABOM_API_URL` constant of the wrapper module. -/
def DABOM_API_URL : String := "https://api.dabomai.com"

structure HttpRequest where
  url : String
  body : List (String × Json)
  headers : List (String × String)
deriving Repr

structure HttpResponse where
  status : Nat
  reason : String
  body : Json
deriving Repr

/-- `DabomSearchAPIWrapper._get_headers`. -/
def get_headers (apiKey : String) : List (String × String) :=
  [("Authorization", "Bearer " ++ apiKey), ("Content-Type", "application/json")]

/-- `max_results : Optional[int]` serialised into the JSON body
(`None` becomes JSON `null`). -/
def jsonOfOptInt : Option Int → Json
  | none => Json.null
  | some n => Json.num n

/-- The request `raw_results` hands to `requests.post`: url
`DABOM_API_URL + "/search"`, JSON body `params`, headers from
`_get_headers`. -/
def sync_search_request (apiKey query : String) (max_results : Option Int) :
    HttpRequest :=
  { url := DABOM_API_URL ++ "/search"
    body := [("query", Json.str query), ("max_results", jsonOfOptInt max_results)]
    headers := get_headers apiKey }

/-- `requests.Response.raise_for_status`: raises `HTTPError` exactly for
status codes 400–599 ("Client Error" for 4xx, "Server Error" for 5xx);
any other status returns normally. -/
def raise_for_status (resp : HttpResponse) : Except Err Unit :=
  if 400 ≤ resp.status ∧ resp.status < 600 then
    .error (.httpError resp.status resp.reason)
  else
    .ok ()

/-- `DabomSearchAPIWrapper.raw_results`.  The transport function stands for
the `requests` library performing the POST. -/
def raw_results (transport : HttpRequest → HttpResponse)
    (apiKey query : String) (max_results : Option Int := some 5) :
    Except Err Json := do
  let response := transport (sync_search_request apiKey query max_results)
  let _ ← raise_for_status response
  .ok response.body

/-- `DabomSearchAPIWrapper.results`: raw call, then
`clean_results(raw_search_results["results"])`. -/
def results (transport : HttpRequest → HttpResponse)
    (apiKey query : String) (max_results : Option Int := some 5) :
    Except Err (List Json) := do
  let raw_search_results ← raw_results transport apiKey query max_results
  let rs ← getItem raw_search_results "results"
  clean_results rs

/-- The request the `fetch` closure of `raw_results_async` hands to
`aiohttp`: note the body carries `api_key` in addition to `query` and
`max_results`. -/
def async_search_request (apiKey query : String) (max_results : Option Int) :
    HttpRequest :=
  { url := DABOM_API_URL ++ "/search"
    body := [("api_key", Json.str apiKey), ("query", Json.str query),
             ("max_results", jsonOfOptInt max_results)]
    headers := get_headers apiKey }

/-- `DabomSearchAPIWrapper.raw_results_async`: status exactly 200 returns
the parsed body; anything else raises
`Exception(f"Error {res.status}: {res.reason}")`. -/
def raw_results_async (transport : HttpRequest → HttpResponse)
    (apiKey query : String) (max_results : Option Int := some 5) :
    Except Err Json :=
  let res := transport (async_search_request apiKey query max_results)
  if res.status = 200 then
    .ok res.body
  else
    .error (.exception ("Error " ++ toString res.status ++ ": " ++ res.reason))

/-- `DabomSearchAPIWrapper.results_async`. -/
def results_async (transport : HttpRequest → HttpResponse)
    (apiKey query : String) (max_results : Option Int := some 5) :
    Except Err (List Json) := do
  let results_json ← raw_results_async transport apiKey query max_results
  let rs ← getItem results_json "results"
  clean_results rs

/-- Python `repr(e)` for the exceptions of `Err`.  For `httpError` the
message is the one `requests.Response.raise_for_status` builds
(`"{status} Client Error: {reason} for url: {url}"`, `Server Error` for
5xx); the `TypeError` message text varies with the offending value and is
abstracted. -/
def reprE : Err → String
  | .httpError status reason =>
    let kind := if status < 500 then "Client Error" else "Server Error"
    "HTTPError('" ++ toString status ++ " " ++ kind ++ ": " ++ reason ++
      " for url: " ++ DABOM_API_URL ++ "/search')"
  | .exception msg => "Exception('" ++ msg ++ "')"
  | .keyError key => "KeyError('" ++ key ++ "')"
  | .typeError => "TypeError(...)"
  | .valueError msg => "ValueError('" ++ msg ++ "')"

/-- The `DabomSearchResults` tool (`dabom_search.py`).  Its `api_wrapper`
field is modelled by passing the wrapper's api key and the transport to the
entry points directly. -/
structure DabomSearchResults where
  name : String := "tavily_search_results_json"
  description : String :=
    "포괄적이고 정확하며 신뢰할 수 있는 결과를 위해 최적화된 검색 엔진입니다. " ++
    "현재 이벤트에 대한 질문에 답해야 할 때 유용합니다. " ++
    "입력은 검색어여야 합니다. "
  max_results : Int := 5

/-- `DabomSearchResults._run`: `try: return self.api_wrapper.results(query,
self.max_results) except Exception as e: return repr(e)`.  `Sum.inl` is the
`List[Dict]` branch of the `Union`, `Sum.inr` the `str` branch. -/
def DabomSearchResults.run (tool : DabomSearchResults)
    (transport : HttpRequest → HttpResponse) (apiKey query : String) :
    Sum (List Json) String :=
  match results transport apiKey query (some tool.max_results) with
  | .ok r => .inl r
  | .error e => .inr (reprE e)

/-- `DabomSearchResults._arun`: the same try/except around
`await self.api_wrapper.results_async(query, self.max_results)`. -/
def DabomSearchResults.arun (tool : DabomSearchResults)
    (transport : HttpRequest → HttpResponse) (apiKey query : String) :
    Sum (List Json) String :=
  match results_async transport apiKey query (some tool.max_results) with
  | .ok r => .inl r
  | .error e => .inr (reprE e)

/-- First-match lookup in a string-valued dict (constructor `values`, or
`os.environ`). -/
def lookupStr : List (String × String) → String → Option String
  | [], _ => none
  | (k, v) :: rest, key => if k = key then some v else lookupStr rest key

/-- Python dict assignment `d[key] = v`: overwrite the existing entry or
append a new one. -/
def setStr : List (String × String) → String → String → List (String × String)
  | [], key, v => [(key, v)]
  | (k, w) :: rest, key, v =>
    if k = key then (key, v) :: rest else (k, w) :: setStr rest key v

/-- `langchain_core.utils.get_from_env` with `default=None`: the variable
must be present in the environment with a truthy (non-empty) value,
otherwise `ValueError` is raised. -/
def get_from_env (key env_key : String) (env : List (String × String)) :
    Except Err String :=
  match lookupStr env env_key with
  | some v =>
    if v = "" then
      .error (.valueError ("Did not find " ++ key))
    else
      .ok v
  | none => .error (.valueError ("Did not find " ++ key))

/-- `langchain_core.utils.get_from_dict_or_env` with `default=None`: a
truthy (non-empty) dict entry wins, otherwise fall back to the
environment. -/
def get_from_dict_or_env (data : List (String × String))
    (key env_key : String) (env : List (String × String)) :
    Except Err String :=
  match lookupStr data key with
  | some v => if v = "" then get_from_env key env_key env else .ok v
  | none => get_from_env key env_key env

/-- `DabomSearchAPIWrapper.validate_environment` (a `pre=True` root
validator): resolve the key from the constructor values or `DABOM_API_KEY`
and store it back into `values`. -/
def validate_environment (values env : List (String × String)) :
    Except Err (List (String × String)) := do
  let dabom_api_key ← get_from_dict_or_env values "dabom_api_key" "DABOM_API_KEY" env
  .ok (setStr values "dabom_api_key" dabom_api_key)

/-- Constructing `DabomSearchAPIWrapper(**values)` under the environment
`env`: run the root validator, then read the (pydantic-required)
`dabom_api_key` field.  The constructed wrapper is represented by the api
key it stores. -/
def mk_DabomSearchAPIWrapper (values env : List (String × String)) :
    Except Err String := do
  let vs ← validate_environment values env
  match lookupStr vs "dabom_api_key" with
  | some k => .ok k
  | none => .error (.valueError "field required")

/-! ## Helper lemmas about the cleaning projection -/

/-- The `url` value a record yields under `getItem` (used to state the
projection; `Json.null` is an arbitrary placeholder for records that would
raise). -/
def urlOf (r : Json) : Json :=
  match getItem r "url" with
  | .ok v => v
  | .error _ => Json.null

/-- The `content` value a record yields under `getItem`. -/
def contentOf (r : Json) : Json :=
  match getItem r "content" with
  | .ok v => v
  | .error _ => Json.null

theorem urlOf_eq {r u : Json} (h : getItem r "url" = .ok u) : urlOf r = u := by
  simp [urlOf, h]

theorem contentOf_eq {r c : Json} (h : getItem r "content" = .ok c) :
    contentOf r = c := by
  simp [contentOf, h]

theorem cleanRecord_eq {r u c : Json} (hu : getItem r "url" = .ok u)
    (hc : getItem r "content" = .ok c) :
    cleanRecord r = .ok (Json.obj [("url", u), ("content", c)]) := by
  simp only [cleanRecord, hu, hc]
  rfl

/-- On a list of records that all have `url` and `content`, the loop of
`clean_results` succeeds and is exactly the element-wise projection. -/
theorem cleanList_eq_map {rs : List Json}
    (h : ∀ r ∈ rs, (∃ u, getItem r "url" = .ok u) ∧ (∃ c, getItem r "content" = .ok c)) :
    cleanList rs = .ok (rs.map fun r => Json.obj [("url", urlOf r), ("content", contentOf r)]) := by
  induction rs with
  | nil => simp [cleanList]
  | cons r rest ih =>
    obtain ⟨⟨u, hu⟩, ⟨c, hc⟩⟩ := h r (List.mem_cons_self r rest)
    have hrec := cleanRecord_eq hu hc
    have hrest := ih fun x hx => h x (List.mem_cons_of_mem r hx)
    simp only [cleanList, hrec, hrest, List.map_cons, urlOf_eq hu, contentOf_eq hc]
    rfl

/-- Case analysis of `cleanRecord` on a dict record: it either projects the
two fields or raises `KeyError` on the first missing one. -/
theorem cleanRecord_obj (fs : List (String × Json)) :
    (∃ u c, lookupField fs "url" = some u ∧ lookupField fs "content" = some c ∧
      cleanRecord (Json.obj fs) = .ok (Json.obj [("url", u), ("content", c)]))
    ∨ ((lookupField fs "url" = none ∨ lookupField fs "content" = none) ∧
      ∃ key, cleanRecord (Json.obj fs) = .error (.keyError key)) := by
  cases hu : lookupField fs "url" with
  | none =>
    refine Or.inr ⟨Or.inl rfl, "url", ?_⟩
    simp only [cleanRecord, getItem, hu]
    rfl
  | some u =>
    cases hc : lookupField fs "content" with
    | none =>
      refine Or.inr ⟨Or.inr rfl, "content", ?_⟩
      simp only [cleanRecord, getItem, hu, hc]
      rfl
    | some c =>
      refine Or.inl ⟨u, c, rfl, rfl, ?_⟩
      simp only [cleanRecord, getItem, hu, hc]
      rfl

/-- The loop of `clean_results`, run on a list of dict records, raises a
`KeyError` exactly when some record lacks `url` or `content`. -/
theorem cleanList_keyError_iff {rs : List Json}
    (hobj : ∀ r ∈ rs, ∃ fs, r = Json.obj fs) :
    (∃ key, cleanList rs = .error (.keyError key)) ↔
    (∃ fs, Json.obj fs ∈ rs ∧
      (lookupField fs "url" = none ∨ lookupField fs "content" = none)) := by
  induction rs with
  | nil => simp [cleanList]
  | cons r rest ih =>
    obtain ⟨fs, hr⟩ := hobj r (List.mem_cons_self r rest)
    subst hr
    have ihh := ih fun x hx => hobj x (List.mem_cons_of_mem _ hx)
    rcases cleanRecord_obj fs with ⟨u, c, hu, hc, hok⟩ | ⟨hbad, key, herr⟩
    · cases hrest : cleanList rest with
      | ok cs =>
        have heq : cleanList (Json.obj fs :: rest) =
            .ok (Json.obj [("url", u), ("content", c)] :: cs) := by
          simp only [cleanList, hok, hrest]
          rfl
        constructor
        · rintro ⟨key, hk⟩
          rw [heq] at hk
          exact absurd hk (by simp)
        · rintro ⟨fs', hmem, hbad'⟩
          rcases List.mem_cons.mp hmem with heq' | hmem'
          · obtain rfl : fs' = fs := by
              simpa using heq'
            rcases hbad' with h1 | h1 <;> simp [hu, hc] at h1
          · obtain ⟨key, hkey⟩ := ihh.mpr ⟨fs', hmem', hbad'⟩
            rw [hrest] at hkey
            exact absurd hkey (by simp)
      | error e =>
        have heq : cleanList (Json.obj fs :: rest) = .error e := by
          simp only [cleanList, hok, hrest]
          rfl
        constructor
        · rintro ⟨key, hk⟩
          rw [heq] at hk
          obtain rfl : e = Err.keyError key := by simpa using hk
          obtain ⟨fs', hmem', hbad'⟩ := ihh.mp ⟨key, hrest⟩
          exact ⟨fs', List.mem_cons_of_mem _ hmem', hbad'⟩
        · rintro ⟨fs', hmem, hbad'⟩
          rcases List.mem_cons.mp hmem with heq' | hmem'
          · obtain rfl : fs' = fs := by
              simpa using heq'
            rcases hbad' with h1 | h1 <;> simp [hu, hc] at h1
          · obtain ⟨key, hkey⟩ := ihh.mpr ⟨fs', hmem', hbad'⟩
            rw [hrest] at hkey
            obtain rfl : e = Err.keyError key := by simpa using hkey
            exact ⟨key, heq⟩
    · have heq : cleanList (Json.obj fs :: rest) = .error (.keyError key) := by
        simp only [cleanList, herr]
        rfl
      refine iff_of_true ⟨key, heq⟩ ⟨fs, List.mem_cons_self _ _, hbad⟩

/-! ## Evaluation lemmas for the HTTP layer under a constant transport -/

theorem raw_results_ok (status : Nat) (reason : String) (body : Json)
    (k q : String) (mr : Option Int) (h : ¬ (400 ≤ status ∧ status < 600)) :
    raw_results (fun _ => ⟨status, reason, body⟩) k q mr = .ok body := by
  simp only [raw_results, raise_for_status, if_neg h]
  rfl

theorem raw_results_err (status : Nat) (reason : String) (body : Json)
    (k q : String) (mr : Option Int) (h : 400 ≤ status ∧ status < 600) :
    raw_results (fun _ => ⟨status, reason, body⟩) k q mr
      = .error (.httpError status reason) := by
  simp only [raw_results, raise_for_status, if_pos h]
  rfl

theorem results_eq_of_raw {t : HttpRequest → HttpResponse} {k q : String}
    {mr : Option Int} {body : Json} (h : raw_results t k q mr = .ok body) :
    results t k q mr = (getItem body "results" >>= fun rs => clean_results rs) := by
  simp only [results, h]
  rfl

theorem results_err_of_raw {t : HttpRequest → HttpResponse} {k q : String}
    {mr : Option Int} {e : Err} (h : raw_results t k q mr = .error e) :
    results t k q mr = .error e := by
  simp only [results, h]
  rfl

theorem raw_results_async_200 (reason : String) (body : Json)
    (k q : String) (mr : Option Int) :
    raw_results_async (fun _ => ⟨200, reason, body⟩) k q mr = .ok body := by
  simp [raw_results_async]

theorem results_async_eq_of_raw {t : HttpRequest → HttpResponse} {k q : String}
    {mr : Option Int} {body : Json} (h : raw_results_async t k q mr = .ok body) :
    results_async t k q mr = (getItem body "results" >>= fun rs => clean_results rs) := by
  simp only [results_async, h]
  rfl

/-! ## The claims -/

/-- Claim C1 (confirmed): for every raw response whose `results` field is a
sequence of N records each containing `url` and `content`, `results` and
`results_async` return exactly N cleaned records, in the raw order, each
cleaned record holding exactly the two fields `url` and `content` copied
from the corresponding input record. -/
theorem claim_C1 (fields : List (String × Json)) (rs : List Json)
    (apiKey query reason : String) (mr : Option Int)
    (hres : lookupField fields "results" = some (Json.arr rs))
    (hrec : ∀ r ∈ rs, (∃ u, getItem r "url" = .ok u) ∧ (∃ c, getItem r "content" = .ok c)) :
    results (fun _ => ⟨200, reason, Json.obj fields⟩) apiKey query mr
      = .ok (rs.map fun r => Json.obj [("url", urlOf r), ("content", contentOf r)])
    ∧ results_async (fun _ => ⟨200, reason, Json.obj fields⟩) apiKey query mr
      = .ok (rs.map fun r => Json.obj [("url", urlOf r), ("content", contentOf r)])
    ∧ (rs.map fun r => Json.obj [("url", urlOf r), ("content", contentOf r)]).length
      = rs.length := by
  have hclean : clean_results (Json.arr rs)
      = .ok (rs.map fun r => Json.obj [("url", urlOf r), ("content", contentOf r)]) := by
    have h := cleanList_eq_map hrec
    simp only [clean_results, pyIter]
    exact h
  refine ⟨?_, ?_, by simp⟩
  · rw [results_eq_of_raw
      (raw_results_ok 200 reason (Json.obj fields) apiKey query mr (by omega))]
    simp only [getItem, hres]
    exact hclean
  · rw [results_async_eq_of_raw (raw_results_async_200 reason (Json.obj fields) apiKey query mr)]
    simp only [getItem, hres]
    exact hclean

/-- Claim C1 witness: a concrete two-record response is projected to two
cleaned records in order. -/
theorem claim_C1_witness :
    results
      (fun _ => ⟨200, "OK", Json.obj [("results", Json.arr
        [Json.obj [("url", Json.str "https://x.test"), ("content", Json.str "hello"),
                   ("title", Json.str "t"), ("score", Json.num 1)],
         Json.obj [("url", Json.str "u2"), ("content", Json.str "c2")]])]⟩)
      "k" "q" (some 5)
      = .ok [Json.obj [("url", Json.str "https://x.test"), ("content", Json.str "hello")],
             Json.obj [("url", Json.str "u2"), ("content", Json.str "c2")]] := by
  have h := claim_C1
    [("results", Json.arr
      [Json.obj [("url", Json.str "https://x.test"), ("content", Json.str "hello"),
                 ("title", Json.str "t"), ("score", Json.num 1)],
       Json.obj [("url", Json.str "u2"), ("content", Json.str "c2")]])]
    [Json.obj [("url", Json.str "https://x.test"), ("content", Json.str "hello"),
               ("title", Json.str "t"), ("score", Json.num 1)],
     Json.obj [("url", Json.str "u2"), ("content", Json.str "c2")]]
    "k" "q" "OK" (some 5) rfl (by
      intro r hr
      simp only [List.mem_cons, List.not_mem_nil, or_false] at hr
      rcases hr with rfl | rfl
      · exact ⟨⟨Json.str "https://x.test", rfl⟩, ⟨Json.str "hello", rfl⟩⟩
      · exact ⟨⟨Json.str "u2", rfl⟩, ⟨Json.str "c2", rfl⟩⟩)
  exact h.1

/-- Claim C2 counterexample: the asynchronous request body is not the
two-key object `{query, max_results}` — it also carries the credential
under `api_key`. -/
theorem claim_C2_counterexample :
    (async_search_request "secret" "q" (some 5)).body.map Prod.fst
      ≠ ["query", "max_results"]
    ∧ lookupField (async_search_request "secret" "q" (some 5)).body "api_key"
      = some (Json.str "secret") :=
  ⟨by decide, rfl⟩

/-- Claim C2 (corrected): both paths POST to `<base_url>/search` with the
`Authorization: Bearer <key>` header; the synchronous body holds exactly
`query` and `max_results` (no credential), but the asynchronous body holds
the three keys `api_key`, `query`, `max_results`, so on the async path the
credential travels in the body as well as in the header. -/
theorem claim_C2 (k q : String) (mr : Option Int) :
    (sync_search_request k q mr).url = DABOM_API_URL ++ "/search"
    ∧ (sync_search_request k q mr).body.map Prod.fst = ["query", "max_results"]
    ∧ lookupField (sync_search_request k q mr).body "api_key" = none
    ∧ (sync_search_request k q mr).headers
      = [("Authorization", "Bearer " ++ k), ("Content-Type", "application/json")]
    ∧ (async_search_request k q mr).url = DABOM_API_URL ++ "/search"
    ∧ (async_search_request k q mr).body.map Prod.fst
      = ["api_key", "query", "max_results"]
    ∧ lookupField (async_search_request k q mr).body "api_key" = some (Json.str k)
    ∧ (async_search_request k q mr).headers
      = [("Authorization", "Bearer " ++ k), ("Content-Type", "application/json")] :=
  ⟨rfl, rfl, rfl, rfl, rfl, rfl, rfl, rfl⟩

/-- Claim C4 (confirmed): the asynchronous raw call succeeds exactly on
status 200, returning the parsed body; any other status raises
`Exception(f"Error {status}: {reason}")`. -/
theorem claim_C4 (status : Nat) (reason : String) (body : Json)
    (k q : String) (mr : Option Int) :
    (status = 200 →
      raw_results_async (fun _ => ⟨status, reason, body⟩) k q mr = .ok body)
    ∧ (status ≠ 200 →
      raw_results_async (fun _ => ⟨status, reason, body⟩) k q mr
        = .error (.exception ("Error " ++ toString status ++ ": " ++ reason))) := by
  constructor
  · intro h
    subst h
    exact raw_results_async_200 reason body k q mr
  · intro h
    simp [raw_results_async, h]

/-- Claim C4 witness: status 200 returns the body; status 201 (a 2xx that
is not 200) and status 404 both raise. -/
theorem claim_C4_witness :
    raw_results_async (fun _ => ⟨200, "OK", Json.null⟩) "k" "q" (some 5)
      = .ok Json.null
    ∧ raw_results_async (fun _ => ⟨201, "Created", Json.null⟩) "k" "q" (some 5)
      = .error (.exception ("Error " ++ toString 201 ++ ": " ++ "Created"))
    ∧ raw_results_async (fun _ => ⟨404, "Not Found", Json.null⟩) "k" "q" (some 5)
      = .error (.exception ("Error " ++ toString 404 ++ ": " ++ "Not Found")) :=
  ⟨(claim_C4 200 "OK" Json.null "k" "q" (some 5)).1 rfl,
   (claim_C4 201 "Created" Json.null "k" "q" (some 5)).2 (by decide),
   (claim_C4 404 "Not Found" Json.null "k" "q" (some 5)).2 (by decide)⟩

/-- Claim C5 counterexample: status 302 is not in the 2xx range, yet the
synchronous raw call returns the body instead of raising (`raise_for_status`
only raises for 400–599). -/
theorem claim_C5_counterexample :
    raw_results (fun _ => ⟨302, "Found", Json.null⟩) "k" "q" (some 5)
      = .ok Json.null
    ∧ ¬ (200 ≤ 302 ∧ 302 < 300) :=
  ⟨raw_results_ok 302 "Found" Json.null "k" "q" (some 5) (by decide), by decide⟩

/-- Claim C5 (corrected): the synchronous raw call returns the parsed body
for every status outside 400–599 (all 2xx, but also 1xx and 3xx), and for
every status in 400–599 raises an `HTTPError` carrying the status code,
which propagates unchanged through `results`. -/
theorem claim_C5 (status : Nat) (reason : String) (body : Json)
    (k q : String) (mr : Option Int) :
    (¬ (400 ≤ status ∧ status < 600) →
      raw_results (fun _ => ⟨status, reason, body⟩) k q mr = .ok body)
    ∧ (400 ≤ status ∧ status < 600 →
      raw_results (fun _ => ⟨status, reason, body⟩) k q mr
        = .error (.httpError status reason)
      ∧ results (fun _ => ⟨status, reason, body⟩) k q mr
        = .error (.httpError status reason)) := by
  refine ⟨raw_results_ok status reason body k q mr, fun h => ?_⟩
  exact ⟨raw_results_err status reason body k q mr h,
         results_err_of_raw (raw_results_err status reason body k q mr h)⟩

/-- Claim C5 witness: a 204 response succeeds with its body; a 500 response
raises through `raw_results` and `results`. -/
theorem claim_C5_witness :
    raw_results (fun _ => ⟨204, "No Content", Json.null⟩) "k" "q" (some 5)
      = .ok Json.null
    ∧ raw_results (fun _ => ⟨500, "Internal Server Error", Json.null⟩) "k" "q" (some 5)
      = .error (.httpError 500 "Internal Server Error")
    ∧ results (fun _ => ⟨500, "Internal Server Error", Json.null⟩) "k" "q" (some 5)
      = .error (.httpError 500 "Internal Server Error") :=
  ⟨(claim_C5 204 "No Content" Json.null "k" "q" (some 5)).1 (by decide),
   ((claim_C5 500 "Internal Server Error" Json.null "k" "q" (some 5)).2 (by decide)).1,
   ((claim_C5 500 "Internal Server Error" Json.null "k" "q" (some 5)).2 (by decide)).2⟩

/-- Claim C3 (confirmed): the tool entry points never propagate a client
failure — whatever error the client raises, `_run`/`_arun` return its
textual representation (`repr(e)`) as the tool output, and on success they
return the client's cleaned list. -/
theorem claim_C3 (tool : DabomSearchResults) (t : HttpRequest → HttpResponse)
    (k q : String) :
    (∀ r, results t k q (some tool.max_results) = .ok r →
      tool.run t k q = Sum.inl r)
    ∧ (∀ e, results t k q (some tool.max_results) = .error e →
      tool.run t k q = Sum.inr (reprE e))
    ∧ (∀ r, results_async t k q (some tool.max_results) = .ok r →
      tool.arun t k q = Sum.inl r)
    ∧ (∀ e, results_async t k q (some tool.max_results) = .error e →
      tool.arun t k q = Sum.inr (reprE e)) := by
  refine ⟨fun r h => ?_, fun e h => ?_, fun r h => ?_, fun e h => ?_⟩ <;>
    simp [DabomSearchResults.run, DabomSearchResults.arun, h]

/-- Claim C3 witness: a default-configured tool returns the cleaned list on
success, the `HTTPError` text on a 500 response, and the `KeyError` text
when the 200 response lacks `results`. -/
theorem claim_C3_witness :
    ({} : DabomSearchResults).run
      (fun _ => ⟨200, "OK", Json.obj [("results", Json.arr [])]⟩) "k" "q"
      = Sum.inl []
    ∧ ({} : DabomSearchResults).run
      (fun _ => ⟨500, "Internal Server Error", Json.null⟩) "k" "q"
      = Sum.inr (reprE (.httpError 500 "Internal Server Error"))
    ∧ ({} : DabomSearchResults).arun
      (fun _ => ⟨200, "OK", Json.obj []⟩) "k" "q"
      = Sum.inr (reprE (.keyError "results")) :=
  ⟨(claim_C3 {} (fun _ => ⟨200, "OK", Json.obj [("results", Json.arr [])]⟩)
      "k" "q").1 [] rfl,
   (claim_C3 {} (fun _ => ⟨500, "Internal Server Error", Json.null⟩)
      "k" "q").2.1 (.httpError 500 "Internal Server Error") rfl,
   (claim_C3 {} (fun _ => ⟨200, "OK", Json.obj []⟩)
      "k" "q").2.2.2 (.keyError "results") rfl⟩

/-- Claim C6 (confirmed): on a status-200 response whose body is a JSON
object (with `results`, when present, an array of dict records), `results`
and `results_async` raise a `KeyError` — the spec's MalformedResponseError —
exactly when the body lacks `results` or some record lacks `url` or
`content`. -/
theorem claim_C6 (fields : List (String × Json)) (rs : List Json)
    (k q reason : String) (mr : Option Int)
    (hshape : lookupField fields "results" = none ∨
      lookupField fields "results" = some (Json.arr rs))
    (hobj : ∀ r ∈ rs, ∃ fs, r = Json.obj fs) :
    ((∃ key, results (fun _ => ⟨200, reason, Json.obj fields⟩) k q mr
        = .error (.keyError key)) ↔
      (lookupField fields "results" = none ∨
        ∃ fs, Json.obj fs ∈ rs ∧
          (lookupField fs "url" = none ∨ lookupField fs "content" = none)))
    ∧ ((∃ key, results_async (fun _ => ⟨200, reason, Json.obj fields⟩) k q mr
        = .error (.keyError key)) ↔
      (lookupField fields "results" = none ∨
        ∃ fs, Json.obj fs ∈ rs ∧
          (lookupField fs "url" = none ∨ lookupField fs "content" = none))) := by
  have hsync := results_eq_of_raw
    (raw_results_ok 200 reason (Json.obj fields) k q mr (by omega))
  have hasync := results_async_eq_of_raw
    (raw_results_async_200 reason (Json.obj fields) k q mr)
  rcases hshape with hnone | hsome
  · have hpost : (getItem (Json.obj fields) "results" >>= fun rs => clean_results rs)
        = .error (.keyError "results") := by
      simp only [getItem, hnone]
      rfl
    rw [hsync, hasync, hpost]
    exact ⟨iff_of_true ⟨"results", rfl⟩ (Or.inl hnone),
           iff_of_true ⟨"results", rfl⟩ (Or.inl hnone)⟩
  · have hpost : (getItem (Json.obj fields) "results" >>= fun rs => clean_results rs)
        = cleanList rs := by
      simp only [getItem, hsome, clean_results, pyIter]
      rfl
    rw [hsync, hasync, hpost]
    have hfalse : ¬ lookupField fields "results" = none := by simp [hsome]
    have hmain : (∃ key, cleanList rs = .error (.keyError key)) ↔
        (lookupField fields "results" = none ∨
          ∃ fs, Json.obj fs ∈ rs ∧
            (lookupField fs "url" = none ∨ lookupField fs "content" = none)) := by
      constructor
      · intro h
        exact Or.inr ((cleanList_keyError_iff hobj).mp h)
      · rintro (h | h)
        · exact absurd h hfalse
        · exact (cleanList_keyError_iff hobj).mpr h
    exact ⟨hmain, hmain⟩

/-- Claim C6 witness: a 200 response whose single record has `url` but no
`content` makes `results` raise a `KeyError`. -/
theorem claim_C6_witness :
    ∃ key, results
      (fun _ => ⟨200, "OK",
        Json.obj [("results", Json.arr [Json.obj [("url", Json.str "u")]])]⟩)
      "k" "q" (some 5) = .error (.keyError key) :=
  ((claim_C6 [("results", Json.arr [Json.obj [("url", Json.str "u")]])]
      [Json.obj [("url", Json.str "u")]] "k" "q" "OK" (some 5)
      (Or.inr rfl)
      (by
        intro r hr
        simp only [List.mem_cons, List.not_mem_nil, or_false] at hr
        exact ⟨_, hr⟩)).1).mpr
    (Or.inr ⟨[("url", Json.str "u")], List.mem_cons_self _ _, Or.inr rfl⟩)

/-- Claim C7 (confirmed): construction succeeds with a (non-empty)
credential from the constructor argument or from `DABOM_API_KEY`, the
argument taking precedence, and fails with the configuration `ValueError`
when neither is present. -/
theorem claim_C7 (s t : String) (hs : s ≠ "") (ht : t ≠ "") :
    mk_DabomSearchAPIWrapper [("dabom_api_key", s)] [("DABOM_API_KEY", t)] = .ok s
    ∧ mk_DabomSearchAPIWrapper [("dabom_api_key", s)] [] = .ok s
    ∧ mk_DabomSearchAPIWrapper [] [("DABOM_API_KEY", t)] = .ok t
    ∧ mk_DabomSearchAPIWrapper [] []
      = .error (.valueError "Did not find dabom_api_key") := by
  refine ⟨?_, ?_, ?_, ?_⟩ <;>
    · simp [mk_DabomSearchAPIWrapper, validate_environment, get_from_dict_or_env,
        get_from_env, lookupStr, setStr, hs, ht]
      rfl

/-- Claim C7 witness: concrete credentials exercise all four cases. -/
theorem claim_C7_witness :
    mk_DabomSearchAPIWrapper [("dabom_api_key", "argkey")] [("DABOM_API_KEY", "envkey")]
      = .ok "argkey"
    ∧ mk_DabomSearchAPIWrapper [("dabom_api_key", "argkey")] [] = .ok "argkey"
    ∧ mk_DabomSearchAPIWrapper [] [("DABOM_API_KEY", "envkey")] = .ok "envkey"
    ∧ mk_DabomSearchAPIWrapper [] []
      = .error (.valueError "Did not find dabom_api_key") :=
  claim_C7 "argkey" "envkey" (by decide) (by decide)

/-- Claim C8 (confirmed): when the caller omits `max_results` every layer
uses 5 — the tool's field defaults to 5, all four client operations default
to 5, and the defaulted request body carries `max_results = 5`. -/
theorem claim_C8 (t : HttpRequest → HttpResponse) (k q : String) :
    ({} : DabomSearchResults).max_results = 5
    ∧ raw_results t k q = raw_results t k q (some 5)
    ∧ results t k q = results t k q (some 5)
    ∧ raw_results_async t k q = raw_results_async t k q (some 5)
    ∧ results_async t k q = results_async t k q (some 5)
    ∧ lookupField (sync_search_request k q (some 5)).body "max_results"
      = some (Json.num 5)
    ∧ lookupField (async_search_request k q (some 5)).body "max_results"
      = some (Json.num 5) :=
  ⟨rfl, rfl, rfl, rfl, rfl, rfl, rfl⟩

/-- Claim C9 (confirmed): no local truncation — for every `max_results`
value, a well-formed response with N records yields all N cleaned records
from `results` and `results_async`; `max_results` only lands in the request
body. -/
theorem claim_C9 (fields : List (String × Json)) (rs : List Json)
    (k q reason : String) (mr : Option Int)
    (hres : lookupField fields "results" = some (Json.arr rs))
    (hrec : ∀ r ∈ rs, (∃ u, getItem r "url" = .ok u) ∧ (∃ c, getItem r "content" = .ok c)) :
    ∃ out, results (fun _ => ⟨200, reason, Json.obj fields⟩) k q mr = .ok out
      ∧ results_async (fun _ => ⟨200, reason, Json.obj fields⟩) k q mr = .ok out
      ∧ out.length = rs.length
      ∧ lookupField (sync_search_request k q mr).body "max_results"
        = some (jsonOfOptInt mr)
      ∧ lookupField (async_search_request k q mr).body "max_results"
        = some (jsonOfOptInt mr) := by
  have hclean : clean_results (Json.arr rs)
      = .ok (rs.map fun r => Json.obj [("url", urlOf r), ("content", contentOf r)]) := by
    have h := cleanList_eq_map hrec
    simp only [clean_results, pyIter]
    exact h
  refine ⟨rs.map fun r => Json.obj [("url", urlOf r), ("content", contentOf r)],
    ?_, ?_, by simp, rfl, rfl⟩
  · rw [results_eq_of_raw
      (raw_results_ok 200 reason (Json.obj fields) k q mr (by omega))]
    simp only [getItem, hres]
    exact hclean
  · rw [results_async_eq_of_raw
      (raw_results_async_200 reason (Json.obj fields) k q mr)]
    simp only [getItem, hres]
    exact hclean

/-- Claim C9 witness: with `max_results = 1`, a three-record response still
yields all three cleaned records on both paths. -/
theorem claim_C9_witness :
    ∃ out, results
      (fun _ => ⟨200, "OK", Json.obj [("results", Json.arr
        [Json.obj [("url", Json.str "u1"), ("content", Json.str "c1")],
         Json.obj [("url", Json.str "u2"), ("content", Json.str "c2")],
         Json.obj [("url", Json.str "u3"), ("content", Json.str "c3")]])]⟩)
      "k" "q" (some 1) = .ok out
      ∧ results_async
      (fun _ => ⟨200, "OK", Json.obj [("results", Json.arr
        [Json.obj [("url", Json.str "u1"), ("content", Json.str "c1")],
         Json.obj [("url", Json.str "u2"), ("content", Json.str "c2")],
         Json.obj [("url", Json.str "u3"), ("content", Json.str "c3")]])]⟩)
      "k" "q" (some 1) = .ok out
      ∧ out.length = 3
      ∧ lookupField (sync_search_request "k" "q" (some 1)).body "max_results"
        = some (Json.num 1)
      ∧ lookupField (async_search_request "k" "q" (some 1)).body "max_results"
        = some (Json.num 1) :=
  claim_C9
    [("results", Json.arr
      [Json.obj [("url", Json.str "u1"), ("content", Json.str "c1")],
       Json.obj [("url", Json.str "u2"), ("content", Json.str "c2")],
       Json.obj [("url", Json.str "u3"), ("content", Json.str "c3")]])]
    [Json.obj [("url", Json.str "u1"), ("content", Json.str "c1")],
     Json.obj [("url", Json.str "u2"), ("content", Json.str "c2")],
     Json.obj [("url", Json.str "u3"), ("content", Json.str "c3")]]
    "k" "q" "OK" (some 1) rfl
    (by
      intro r hr
      simp only [List.mem_cons, List.not_mem_nil, or_false] at hr
      rcases hr with rfl | rfl | rfl
      · exact ⟨⟨Json.str "u1", rfl⟩, ⟨Json.str "c1", rfl⟩⟩
      · exact ⟨⟨Json.str "u2", rfl⟩, ⟨Json.str "c2", rfl⟩⟩
      · exact ⟨⟨Json.str "u3", rfl⟩, ⟨Json.str "c3", rfl⟩⟩)

/-- Claim C10 (confirmed): `max_results` is never validated locally — any
value (including `None`, zero and negatives, via `Option Int`) is forwarded
verbatim into both request bodies, and both raw calls proceed without a
local error. -/
theorem claim_C10 (k q : String) (mr : Option Int) (reason : String) (body : Json) :
    (sync_search_request k q mr).body
      = [("query", Json.str q), ("max_results", jsonOfOptInt mr)]
    ∧ (async_search_request k q mr).body
      = [("api_key", Json.str k), ("query", Json.str q),
         ("max_results", jsonOfOptInt mr)]
    ∧ raw_results (fun _ => ⟨200, reason, body⟩) k q mr = .ok body
    ∧ raw_results_async (fun _ => ⟨200, reason, body⟩) k q mr = .ok body :=
  ⟨rfl, rfl, raw_results_ok 200 reason body k q mr (by decide),
   raw_results_async_200 reason body k q mr⟩

end Dabom
